import Mathlib

/-!
Shallow embedding of the `csv_median_calculator` repository
(`src/median_calculator.hpp`, `src/csv_reader.hpp`, `src/main.cpp`).

Machine `double` / `long double` values are modelled as exact rationals;
the narrowing conversion `static_cast<double>` performed by
`median_calculator::add` is modelled explicitly by `median.to_double`
(round to nearest binary64, ties to even).  Double arithmetic inside the
median computation (sums, divisions of in-range values) is modelled as
exact rational arithmetic.
-/

/- The Batteries rational primitives are `@[irreducible]`, which blocks the
elaborator (not the kernel) from evaluating concrete states of the embedded
program; restore the default reducibility locally so that `decide` works. -/
attribute [local semireducible] Rat.add Rat.sub Rat.mul Rat.inv Rat.ofScientific

set_option maxRecDepth 100000

namespace median

/-- Round a rational to the nearest integer, ties to even
(the IEEE-754 default rounding used by `static_cast<double>` and by
correctly-rounded decimal output). -/
def round_half_even (q : ℚ) : ℤ :=
  let n := ⌊q⌋
  let r := q - (n : ℚ)
  if r < 1/2 then n
  else if 1/2 < r then n + 1
  else if n % 2 = 0 then n else n + 1

/-- Floor of log₂ on `ℕ` by structural recursion on a fuel argument (so
that it evaluates definitionally); with `fuel ≥ n` it is `Nat.log 2 n`. -/
def log2f (fuel n : ℕ) : ℕ :=
  match fuel with
  | 0 => 0
  | f + 1 => if n ≤ 1 then 0 else log2f f (n / 2) + 1

/-- Floor of log₂ of a positive rational (helper for `to_double`). -/
def flog2 (q : ℚ) : ℤ :=
  let a : ℤ := log2f q.num.toNat q.num.toNat
  let b : ℤ := log2f q.den q.den
  let e0 : ℤ := a - b
  if (2:ℚ)^e0 ≤ q then e0 else e0 - 1

/-- Models the narrowing conversion `static_cast<double>(value)` at
`median_calculator.hpp:39`: round to the nearest IEEE-754 binary64 value
(53-bit significand), ties to even.  Faithful on the normal finite range of
binary64; subnormal underflow and overflow to infinity are not modelled
(a value such as `2^2000` overflows to infinity in the program but stays
finite here), so the theorems whose truth depends on double faithfulness
admit values only through `double_in_range`, which confines them — and every
intermediate the calculator computes from them — to the normal range. -/
def to_double (q : ℚ) : ℚ :=
  if q = 0 then 0
  else
    let s : ℤ := 52 - flog2 |q|
    (round_half_even (q * 2^s) : ℚ) * 2^(-s)

/-!
### The P² (P-square) quantile estimator

State and transition of `boost::accumulators::impl::p_square_quantile_impl`
(`boost/accumulators/statistics/p_square_quantile.hpp`), the accumulator
instantiated by `median_calculator::promote_to_psquare` with
`quantile_probability = 0.5`.  `float_type` (`double`) is modelled as `ℚ`.
The five-element boost arrays are modelled as five-element lists, read with
`List.getD · · 0` (the constructor value-initialises every array to zeros).
-/

structure p_square_acc where
  /-- the quantile probability `p` (0.5 for the median) -/
  p : ℚ
  /-- marker heights `heights[0..4]` -/
  heights : List ℚ
  /-- marker positions `actual_positions[0..4]` -/
  actual_positions : List ℚ
  /-- `desired_positions[0..4]` -/
  desired_positions : List ℚ
  /-- number of samples seen, `count(args)` after the current sample -/
  cnt : ℕ
deriving DecidableEq, Repr

/-- The constant array `positions_increments` set up in the constructor. -/
def increments (p : ℚ) : List ℚ := [0, p/2, p, (1+p)/2, 1]

/-- The accumulator as built by its constructor (before any sample). -/
def p_square_init (p : ℚ) : p_square_acc :=
  ⟨p, [0,0,0,0,0], [1,2,3,4,5], [1, 1+2*p, 1+4*p, 3+2*p, 5], 0⟩

/-- `std::upper_bound`: index of the first element greater than `x`. -/
def upper_bound_idx (hs : List ℚ) (x : ℚ) : ℕ :=
  match hs with
  | [] => 0
  | h :: t => if x < h then 0 else upper_bound_idx t x + 1

/-- One pass of the marker-adjustment loop body (`for i in 1..3`) of the P²
update, acting on (heights, actual positions) with the already-updated
desired positions. -/
def adjust (dps : List ℚ) (st : List ℚ × List ℚ) (i : ℕ) : List ℚ × List ℚ :=
  let hs := st.1
  let ap := st.2
  let d := dps.getD i 0 - ap.getD i 0
  let dp' := ap.getD (i+1) 0 - ap.getD i 0
  let dm := ap.getD (i-1) 0 - ap.getD i 0
  let hp := (hs.getD (i+1) 0 - hs.getD i 0) / dp'
  let hm := (hs.getD (i-1) 0 - hs.getD i 0) / dm
  if (1 ≤ d ∧ 1 < dp') ∨ (d ≤ -1 ∧ dm < -1) then
    let sgn : ℚ := if 0 < d then 1 else -1
    let h := hs.getD i 0 + sgn / (dp' - dm) * ((sgn - dm) * hp + (dp' - sgn) * hm)
    let hs' :=
      if hs.getD (i-1) 0 < h ∧ h < hs.getD (i+1) 0 then hs.set i h
      else if 0 < d then hs.set i (hs.getD i 0 + hp)
      else hs.set i (hs.getD i 0 - hm)
    (hs', ap.set i (ap.getD i 0 + sgn))
  else (hs, ap)

/-- `p_square_quantile_impl::operator()`: feed one sample. -/
def p_square_step (st : p_square_acc) (x : ℚ) : p_square_acc :=
  let cnt := st.cnt + 1
  if cnt ≤ 5 then
    let hs := st.heights.set (cnt - 1) x
    { st with
      heights := if cnt = 5 then hs.insertionSort (· ≤ ·) else hs
      cnt := cnt }
  else
    let found :=
      if x < st.heights.getD 0 0 then (st.heights.set 0 x, 1)
      else if st.heights.getD 4 0 ≤ x then (st.heights.set 4 x, 4)
      else (st.heights, upper_bound_idx st.heights x)
    let ap := (List.range 5).map fun i =>
      if found.2 ≤ i then st.actual_positions.getD i 0 + 1
      else st.actual_positions.getD i 0
    let dps := List.zipWith (· + ·) st.desired_positions (increments st.p)
    let hsap := [1, 2, 3].foldl (adjust dps) (found.1, ap)
    { st with
      heights := hsap.1
      actual_positions := hsap.2
      desired_positions := dps
      cnt := cnt }

/-- `p_square_quantile_impl::result`: the middle marker height. -/
def p_square_quantile (st : p_square_acc) : ℚ := st.heights.getD 2 0

/-!
### `median::median_calculator` (`src/median_calculator.hpp`)
-/

structure median_calculator where
  /-- `_seed_threshold` -/
  seed_threshold : ℕ
  /-- `_has_value` -/
  has_value : Bool
  /-- `_using_psquare` -/
  using_psquare : Bool
  /-- `_buffer` -/
  buffer : List ℚ
  /-- `_acc` -/
  acc : Option p_square_acc
deriving DecidableEq, Repr

/-- The constructor `median_calculator(std::size_t seed_threshold = 64)`. -/
def mk_calculator (seed_threshold : ℕ := 64) : median_calculator :=
  ⟨seed_threshold, false, false, [], none⟩

/-- `median_calculator::promote_to_psquare`: build the accumulator with
`quantile_probability = 0.5`, refeed the buffer, clear it, set the flag. -/
def promote_to_psquare (st : median_calculator) : median_calculator :=
  { st with
    acc := some (st.buffer.foldl p_square_step (p_square_init (1/2)))
    buffer := []
    using_psquare := true }

/-- `median_calculator::add(long double value)`.  The body first narrows
`value` to `double` (modelled by `to_double`). -/
def add (st : median_calculator) (value : ℚ) : median_calculator :=
  let v := to_double value
  if st.using_psquare = false then
    let st' := { st with buffer := st.buffer ++ [v], has_value := true }
    if st'.seed_threshold ≤ st'.buffer.length then promote_to_psquare st' else st'
  else
    { st with acc := st.acc.map (fun a => p_square_step a v), has_value := true }

/-- `median_calculator::exact_median_from_buffer`.  The source copies the
buffer, runs `std::nth_element` at `mid = n/2` and, for even `n`, takes
`max_element` of the left half; by the `nth_element` postcondition the value
at `mid` is the `mid`-th order statistic and the left maximum is the
`(mid-1)`-th, so both are read off the fully sorted copy here.  The
even-count result `(lo + hi) / 2.0` (median_calculator.hpp:96–99) is
`double` arithmetic: the addition rounds to binary64 and so does the
halving, each modelled by `to_double`.  On an empty buffer the source
returns quiet NaN; that branch is unreachable from `median` (see
`buffer_ne_nil_of_not_psquare`) and is modelled as `0`. -/
def exact_median_from_buffer (buf : List ℚ) : ℚ :=
  if buf = [] then 0
  else
    let tmp := buf.insertionSort (· ≤ ·)
    let n := buf.length
    let mid := n / 2
    if n % 2 = 1 then tmp.getD mid 0
    else to_double (to_double (tmp.getD (mid - 1) 0 + tmp.getD mid 0) / 2)

/-- `median_calculator::median`.  In P² mode the source dereferences the
engaged `std::optional` `_acc`; the accumulator is present whenever
`_using_psquare` is set (see `acc_isSome_of_psquare`), and the default
supplied to `Option.getD` is never read on reachable states. -/
def median (st : median_calculator) : Option ℚ :=
  if st.has_value = false then none
  else if st.using_psquare = false then some (exact_median_from_buffer st.buffer)
  else some (p_square_quantile (st.acc.getD (p_square_init (1/2))))

/-- Inserting a whole list, oldest first, into a fresh default-constructed
calculator (`median::median_calculator calc;` in `main.cpp`). -/
def run_calc (l : List ℚ) : median_calculator :=
  l.foldl add (mk_calculator 64)

/-- Modelled from the spec: the median of a finite multiset obtained by
"fully sorting S and selecting the middle element (odd count) or the mean of
the two middle elements (even count)". -/
def median_by_sorting (l : List ℚ) : ℚ :=
  let s := l.insertionSort (· ≤ ·)
  if l.length % 2 = 1 then s.getD (l.length / 2) 0
  else (s.getD (l.length / 2 - 1) 0 + s.getD (l.length / 2) 0) / 2

/-- The sorting-and-selection median as the program realises it below the
seed threshold: the middle element for an odd count, and for an even count
the mean of the two middle elements computed in `double` arithmetic — the
addition and the halving each round to binary64, as in
`exact_median_from_buffer`. -/
def median_by_sorting_double (l : List ℚ) : ℚ :=
  let s := l.insertionSort (· ≤ ·)
  if l.length % 2 = 1 then s.getD (l.length / 2) 0
  else to_double (to_double (s.getD (l.length / 2 - 1) 0 + s.getD (l.length / 2) 0) / 2)

/-- `v` is a value on which the embedding treats `double` faithfully: it is
representable in binary64 (`to_double v = v`) and, unless zero, of
magnitude within `[2^(-510), 2^510]`.  On such values every `double`
intermediate the calculator produces stays in binary64's normal finite
range: a sum of two such values has magnitude at most `2^511` (no overflow
to infinity) and, when non-zero, at least `2^(-562)` — one ulp of the
smaller operand — so no subnormal rounding, and likewise after halving;
that is the regime in which `to_double` models the machine operations
exactly. -/
def double_in_range (v : ℚ) : Prop :=
  to_double v = v ∧ (v = 0 ∨ (((2:ℚ)^510)⁻¹ ≤ |v| ∧ |v| ≤ (2:ℚ)^510))

instance (v : ℚ) : Decidable (double_in_range v) :=
  inferInstanceAs
    (Decidable (to_double v = v ∧ (v = 0 ∨ (((2:ℚ)^510)⁻¹ ≤ |v| ∧ |v| ≤ (2:ℚ)^510))))

end median

namespace csv

/-- `csv::record_t`.  `receive_ts` and `line_no` are `uint64_t`; the parser
rejects out-of-range input, so the values stay below `2^64` and are carried
as `ℕ`.  `price` is `long double`, carried at full precision as `ℚ`. -/
structure record_t where
  receive_ts : ℕ
  price : ℚ
  source_file : String
  line_no : ℕ
deriving DecidableEq, Repr

/-- Split a character list at each occurrence of `sep`: the tokens between
separators (helper for `split_line`). -/
def split_chars (sep : Char) : List Char → List (List Char)
  | [] => [[]]
  | c :: t =>
    if c = sep then [] :: split_chars sep t
    else
      match split_chars sep t with
      | [] => [[c]]
      | h :: r => (c :: h) :: r

/-- `csv::split_line` (delimiter `;`).  `std::getline` on an
`istringstream` yields one token per separator-terminated or final segment
and fails at end of input, so an empty string yields no token and a single
trailing separator does not produce a final empty token. -/
def split_line (s : String) : List String :=
  if s = "" then []
  else
    let t := (split_chars ';' s.toList).map String.mk
    if s.toList.getLast? = some ';' then t.dropLast else t

/-- Trim the characters of `" \t\r\n"` (exactly `Char.isWhitespace`) from
both ends, as the header loop does with `erase`/`find_first_not_of`. -/
def trim_chars (cs : List Char) : List Char :=
  ((cs.dropWhile Char.isWhitespace).reverse.dropWhile Char.isWhitespace).reverse

/-- The header-scanning loop of `read_csv_files` (csv_reader.hpp:113–120):
each column is trimmed and compared; a later match overwrites an earlier
index. -/
def find_col (cols : List String) (name : String) : Option ℕ :=
  (List.range cols.length).foldl
    (fun acc i =>
      if String.mk (trim_chars (cols.getD i "").toList) = name then some i else acc)
    none

/-- Value of a digit string. -/
def digits_val (cs : List Char) : ℕ :=
  cs.foldl (fun a c => a * 10 + (c.toNat - 48)) 0

/-- `csv::parse_u64` via `std::from_chars` on `unsigned long long`: a
non-empty all-digit string (no sign, no whitespace), fully consumed, with
out-of-range values rejected. -/
def parse_u64 (s : String) : Option ℕ :=
  let cs := s.toList
  if cs ≠ [] ∧ cs.all Char.isDigit then
    if digits_val cs < 2^64 then some (digits_val cs) else none
  else none

/-- The exponent part accepted by `std::stold` after the mantissa, with the
caller's requirement (`idx == s.size()`) that nothing is left over: either
no exponent at all, or `e`/`E`, an optional sign, and at least one digit
reaching the end of the string. -/
def parse_exp (cs : List Char) : Option ℤ :=
  match cs with
  | [] => some 0
  | c :: t =>
    if c = 'e' ∨ c = 'E' then
      let signed : ℤ × List Char :=
        match t with
        | '-' :: r => (-1, r)
        | '+' :: r => (1, r)
        | _ => (1, t)
      if signed.2 ≠ [] ∧ signed.2.all Char.isDigit then
        some (signed.1 * digits_val signed.2)
      else none
    else none

/-- `csv::parse_long_double`: `std::stold` with full consumption required
(`idx == s.size()`).  Modelled on the decimal grammar `stold` accepts —
optional leading whitespace, optional sign, digits with an optional point
and optional fractional digits (at least one digit overall), optional
exponent.  `stold` additionally accepts hexfloat, `inf` and `nan`
spellings, and rejects magnitudes outside `long double` range
(`std::out_of_range` via ERANGE); none of these behaviours is exercised by
any claim here and none is modelled. -/
def parse_long_double (s : String) : Option ℚ :=
  let cs0 := s.toList.dropWhile Char.isWhitespace
  let sgn : ℚ := if cs0.head? = some '-' then -1 else 1
  let cs1 := if cs0.head? = some '-' ∨ cs0.head? = some '+' then cs0.tail else cs0
  let ip := cs1.takeWhile Char.isDigit
  let cs2 := cs1.dropWhile Char.isDigit
  let frac : List Char × List Char :=
    match cs2 with
    | '.' :: t => (t.takeWhile Char.isDigit, t.dropWhile Char.isDigit)
    | _ => ([], cs2)
  if ip = [] ∧ frac.1 = [] then none
  else
    match parse_exp frac.2 with
    | none => none
    | some e =>
      some (sgn * ((digits_val ip : ℚ) + (digits_val frac.1 : ℚ) / 10 ^ frac.1.length) * (10:ℚ) ^ e)

/-- The error strings produced by `csv::read_csv_files`, as structured
values carrying exactly the data each message interpolates.  (The
directory-level and file-open errors of the source are operating-system
events outside the embedding, which starts from the discovered files'
contents.) -/
inductive csv_error where
  /-- "CSV файл не содержит required columns (receive_ts, price): " + file -/
  | missing_columns (file : String)
  /-- "Неправильная строка (мало колонок) в файле " + file + " на строке " + line -/
  | bad_row (file : String) (line : ℕ)
  /-- "Неверный receive_ts в файле " + file + " на строке " + line -/
  | bad_receive_ts (file : String) (line : ℕ)
  /-- "Неверный price в файле " + file + " на строке " + line -/
  | bad_price (file : String) (line : ℕ)
deriving DecidableEq, Repr

/-- The file name interpolated into the error message. -/
def csv_error.file_of : csv_error → String
  | .missing_columns f => f
  | .bad_row f _ => f
  | .bad_receive_ts f _ => f
  | .bad_price f _ => f

/-- The line number interpolated into the error message, if any. -/
def csv_error.line_of : csv_error → Option ℕ
  | .missing_columns _ => none
  | .bad_row _ n => some n
  | .bad_receive_ts _ n => some n
  | .bad_price _ n => some n

/-- The row loop of `read_csv_files` (csv_reader.hpp:125–145).  `line_no`
holds the number of the last line consumed (the header is line 1); each
iteration increments it before any check, empty lines are skipped, and the
first malformed line aborts with the corresponding error. -/
def read_rows (file : String) (idxr idxp : ℕ) (line_no : ℕ) :
    List String → Except csv_error (List record_t)
  | [] => .ok []
  | l :: ls =>
    let n := line_no + 1
    if l = "" then read_rows file idxr idxp n ls
    else
      let vals := split_line l
      if vals.length ≤ max idxr idxp then .error (.bad_row file n)
      else
        match parse_u64 (vals.getD idxr "") with
        | none => .error (.bad_receive_ts file n)
        | some ts =>
          match parse_long_double (vals.getD idxp "") with
          | none => .error (.bad_price file n)
          | some price =>
            match read_rows file idxr idxp n ls with
            | .error e => .error e
            | .ok rest => .ok (⟨ts, price, file, n⟩ :: rest)

/-- One iteration of the file loop of `read_csv_files` on an opened file,
given by name and list of lines.  A file from which `std::getline` can read
no header line is skipped with no records and no error
(csv_reader.hpp:108–111). -/
def read_csv_file (file : String) (lines : List String) :
    Except csv_error (List record_t) :=
  match lines with
  | [] => .ok []
  | header :: rest =>
    let cols := split_line header
    match find_col cols "receive_ts", find_col cols "price" with
    | some idxr, some idxp => read_rows file idxr idxp 1 rest
    | _, _ => .error (.missing_columns file)

/-- `csv::read_csv_files` over the discovered files (name, lines); file
discovery, extension and mask filtering are directory I/O preceding this
point.  The source appends into `out_records` across files and returns the
first error, which `main` treats as fatal. -/
def read_csv_files : List (String × List String) → Except csv_error (List record_t)
  | [] => .ok []
  | (name, lines) :: rest =>
    match read_csv_file name lines with
    | .error e => .error e
    | .ok recs =>
      match read_csv_files rest with
      | .error e => .error e
      | .ok more => .ok (recs ++ more)

end csv

instance {ε α : Type} [DecidableEq ε] [DecidableEq α] : DecidableEq (Except ε α) :=
  fun x y =>
  match x, y with
  | .ok a, .ok b => if h : a = b then .isTrue (by rw [h]) else .isFalse (by simp [h])
  | .error e, .error f => if h : e = f then .isTrue (by rw [h]) else .isFalse (by simp [h])
  | .ok _, .error _ => .isFalse (by simp)
  | .error _, .ok _ => .isFalse (by simp)

namespace main_pipeline

open median csv

/-- The strict comparator passed to `std::stable_sort` (main.cpp:171–176):
timestamp, then source file (lexicographic `std::string` order, as
`String`'s order), then line number. -/
def record_before (a b : record_t) : Bool :=
  if a.receive_ts ≠ b.receive_ts then a.receive_ts < b.receive_ts
  else if a.source_file ≠ b.source_file then a.source_file < b.source_file
  else a.line_no < b.line_no

/-- The non-strict order induced by the comparator: `a` may precede `b`
exactly when the comparator does not demand `b` before `a`.  A sequence is
`std::stable_sort`-sorted iff consecutive elements satisfy this relation. -/
def record_le (a b : record_t) : Prop := record_before b a = false

instance : DecidableRel record_le := fun _ _ => instDecidableEqBool _ _

/-- The sort key as a lexicographic triple. -/
def record_key (r : record_t) : ℕ ×ₗ (String ×ₗ ℕ) :=
  toLex (r.receive_ts, toLex (r.source_file, r.line_no))

/-- `std::stable_sort` with the comparator of main.cpp:171–176: the unique
permutation of the input that is sorted with respect to `record_le` and
keeps the original relative order of elements the comparator cannot
distinguish.  `List.insertionSort record_le` is exactly such a stable sort
(`List.sorted_insertionSort`, `List.sublist_insertionSort`). -/
def sort_records (l : List record_t) : List record_t :=
  l.insertionSort record_le

/-- The `format_price` lambda of `main` (main.cpp:199–204): fixed-point
output of the value with 8 fractional digits.  Correctly-rounded decimal
output of an in-range value rounds to nearest, ties to even; the
`static_cast<double>` it applies is the identity on the double-valued
medians the pipeline produces. -/
def format_price (v : ℚ) : String :=
  let n : ℤ := round_half_even (v * 10^8)
  let sign : String := if v < 0 then "-" else ""
  let fs := toString (n.natAbs % 10^8)
  sign ++ toString (n.natAbs / 10^8) ++ "." ++
    String.mk (List.replicate (8 - fs.length) '0') ++ fs

/-- The loop state of the emission loop (main.cpp:196–217): the calculator,
`last_median_str`, and the output rows written so far (after the header). -/
structure emit_state where
  /-- the `calc` variable of `main` -/
  calculator : median_calculator
  last_median_str : Option String
  out : List (ℕ × String)
deriving Repr

/-- One iteration of the emission loop (main.cpp:207–217): insert the
price, read the median, format it, and write a row exactly when there is a
median and its formatted form differs from the last written one. -/
def emit_step (s : emit_state) (rec : record_t) : emit_state :=
  let c := median.add s.calculator rec.price
  match median.median c with
  | none => { s with calculator := c }
  | some m =>
    let med_str := format_price m
    if s.last_median_str = some med_str then { s with calculator := c }
    else
      { calculator := c
        last_median_str := some med_str
        out := s.out ++ [(rec.receive_ts, med_str)] }

/-- The initial loop state: a default-constructed calculator
(`seed_threshold = 64`), no last string, no rows. -/
def emit_init : emit_state := ⟨mk_calculator 64, none, []⟩

/-- Running the emission loop over a record sequence, returning the output
rows. -/
def run_emit (records : List record_t) : List (ℕ × String) :=
  (records.foldl emit_step emit_init).out

/-- The processing slice of `main` (main.cpp:156–217): read every file,
and only on success sort the records and run the emission loop.  A read
error returns at main.cpp:162, before the output file is created at
main.cpp:187, so the error case carries no output content. -/
def run_pipeline (files : List (String × List String)) :
    Except csv_error (List (ℕ × String)) :=
  match read_csv_files files with
  | .error e => .error e
  | .ok records => .ok (run_emit (sort_records records))

end main_pipeline

/-!
## Characterization lemmas for the calculator
-/

namespace median

lemma add_buffer (st : median_calculator) (v : ℚ) (h : st.using_psquare = false)
    (hlen : st.buffer.length + 1 < st.seed_threshold) :
    add st v = { st with buffer := st.buffer ++ [to_double v], has_value := true } := by
  unfold add
  rw [if_pos h]
  dsimp only
  split_ifs with h2
  · exfalso
    simp only [List.length_append, List.length_singleton] at h2
    omega
  · rfl

lemma add_promote (st : median_calculator) (v : ℚ) (h : st.using_psquare = false)
    (hlen : st.seed_threshold ≤ st.buffer.length + 1) :
    add st v = { st with
      buffer := []
      using_psquare := true
      has_value := true
      acc := some ((st.buffer ++ [to_double v]).foldl p_square_step (p_square_init (1/2))) } := by
  unfold add
  rw [if_pos h]
  dsimp only
  split_ifs with h2
  · rfl
  · exfalso
    simp only [List.length_append, List.length_singleton] at h2
    omega

lemma add_psquare (st : median_calculator) (v : ℚ) (h : st.using_psquare = true) :
    add st v = { st with
      acc := st.acc.map (fun a => p_square_step a (to_double v))
      has_value := true } := by
  unfold add
  rw [if_neg (by simp [h])]

lemma not_psquare_of_eq_false {st : median_calculator} (h : ¬ st.using_psquare = true) :
    st.using_psquare = false := by
  revert h
  cases st.using_psquare <;> simp

lemma foldl_add_buffer (l : List ℚ) (st : median_calculator)
    (h : st.using_psquare = false)
    (hlen : st.buffer.length + l.length < st.seed_threshold) :
    l.foldl add st = { st with
      buffer := st.buffer ++ l.map to_double
      has_value := st.has_value || !l.isEmpty } := by
  induction l generalizing st with
  | nil => simp
  | cons v t ih =>
    simp only [List.length_cons] at hlen
    rw [List.foldl_cons, add_buffer st v h (by omega)]
    rw [ih _ (by simpa using h)
      (by simp only [List.length_append, List.length_singleton]; omega)]
    simp

lemma foldl_add_psquare (l : List ℚ) (st : median_calculator) (a : p_square_acc)
    (h : st.using_psquare = true) (ha : st.acc = some a) :
    l.foldl add st = { st with
      acc := some ((l.map to_double).foldl p_square_step a)
      has_value := st.has_value || !l.isEmpty } := by
  induction l generalizing st a with
  | nil => simp [ha.symm]
  | cons v t ih =>
    rw [List.foldl_cons, add_psquare st v h]
    rw [ih _ (p_square_step a (to_double v)) (by simpa using h) (by simp [ha])]
    simp

lemma run_calc_buffer (l : List ℚ) (hlen : l.length < 64) :
    run_calc l = ⟨64, !l.isEmpty, false, l.map to_double, none⟩ := by
  unfold run_calc
  rw [foldl_add_buffer l (mk_calculator 64) rfl (by simpa [mk_calculator] using hlen)]
  rfl

lemma run_calc_psquare (l : List ℚ) (hlen : 64 ≤ l.length) :
    run_calc l = ⟨64, true, true, [],
      some ((l.map to_double).foldl p_square_step (p_square_init (1/2)))⟩ := by
  obtain ⟨l₁, l₂, rfl, hl₁⟩ : ∃ l₁ l₂, l₁ ++ l₂ = l ∧ l₁.length = 64 :=
    ⟨l.take 64, l.drop 64, List.take_append_drop 64 l, by simp [hlen]⟩
  have hne : l₁ ≠ [] := by intro h; rw [h] at hl₁; simp at hl₁
  obtain ⟨b, v, rfl⟩ : ∃ b v, b ++ [v] = l₁ :=
    ⟨l₁.dropLast, l₁.getLast hne, List.dropLast_append_getLast hne⟩
  have hb : b.length = 63 := by
    simp only [List.length_append, List.length_singleton] at hl₁
    omega
  unfold run_calc
  rw [List.append_assoc, List.foldl_append, List.foldl_append, List.foldl_cons,
    List.foldl_nil]
  rw [foldl_add_buffer b (mk_calculator 64) rfl (by simp [mk_calculator, hb])]
  rw [add_promote _ _ (by simp [mk_calculator]) (by simp [mk_calculator, hb])]
  rw [foldl_add_psquare l₂ _ _ (by simp) rfl]
  simp [mk_calculator, List.foldl_append]

lemma median_eq_none_iff (st : median_calculator) :
    median st = none ↔ st.has_value = false := by
  unfold median
  split_ifs with h1 h2 <;> simp [h1]

lemma add_has_value (st : median_calculator) (v : ℚ) :
    (add st v).has_value = true := by
  unfold add
  dsimp only
  split_ifs <;> simp [promote_to_psquare]

lemma foldl_add_has_value (l : List ℚ) (st : median_calculator) (h : l ≠ []) :
    (l.foldl add st).has_value = true := by
  induction l generalizing st with
  | nil => cases h rfl
  | cons v t ih =>
    rw [List.foldl_cons]
    rcases eq_or_ne t [] with rfl | hne
    · simpa using add_has_value st v
    · exact ih _ hne

lemma buffer_ne_nil_of_not_psquare (l : List ℚ) (hne : l ≠ [])
    (h : (run_calc l).using_psquare = false) : (run_calc l).buffer ≠ [] := by
  induction l using List.reverseRecOn with
  | nil => cases hne rfl
  | append_singleton t v _ =>
    unfold run_calc at h ⊢
    rw [List.foldl_append, List.foldl_cons, List.foldl_nil] at h ⊢
    set st := t.foldl add (mk_calculator 64) with hst
    by_cases hps : st.using_psquare = true
    · rw [add_psquare st v hps] at h
      simp [hps] at h
    · have hps' := not_psquare_of_eq_false hps
      by_cases hp : st.seed_threshold ≤ st.buffer.length + 1
      · rw [add_promote st v hps' hp] at h
        simp at h
      · rw [add_buffer st v hps' (by omega)]
        simp

lemma acc_isSome_of_psquare (l : List ℚ)
    (h : (run_calc l).using_psquare = true) : (run_calc l).acc.isSome := by
  induction l using List.reverseRecOn with
  | nil => simp [run_calc, mk_calculator] at h
  | append_singleton t v ih =>
    unfold run_calc at h ih ⊢
    rw [List.foldl_append, List.foldl_cons, List.foldl_nil] at h ⊢
    set st := t.foldl add (mk_calculator 64) with hst
    by_cases hps : st.using_psquare = true
    · rcases Option.isSome_iff_exists.mp (ih hps) with ⟨a, ha⟩
      rw [add_psquare st v hps]
      simp [ha]
    · have hps' := not_psquare_of_eq_false hps
      by_cases hp : st.seed_threshold ≤ st.buffer.length + 1
      · rw [add_promote st v hps' hp]
        simp
      · rw [add_buffer st v hps' (by omega)] at h
        simp [hps'] at h

lemma exact_median_eq_sorting_double (buf : List ℚ) (h : buf ≠ []) :
    exact_median_from_buffer buf = median_by_sorting_double buf := by
  simp [exact_median_from_buffer, median_by_sorting_double, h]

lemma median_by_sorting_double_odd (l : List ℚ) (h : l.length % 2 = 1) :
    median_by_sorting_double l = median_by_sorting l := by
  simp [median_by_sorting_double, median_by_sorting, h]

lemma median_buffer (l : List ℚ) (hlen : l.length < 64) (hne : l ≠ []) :
    median (run_calc l) = some (exact_median_from_buffer (l.map to_double)) := by
  rw [run_calc_buffer l hlen]
  simp [median, hne]

lemma insertionSort_eq_of_perm {l l' : List ℚ} (h : l.Perm l') :
    l.insertionSort (· ≤ ·) = l'.insertionSort (· ≤ ·) :=
  List.eq_of_perm_of_sorted
    ((List.perm_insertionSort _ _).trans (h.trans (List.perm_insertionSort _ _).symm))
    (List.sorted_insertionSort _ _) (List.sorted_insertionSort _ _)

lemma median_by_sorting_perm {l l' : List ℚ} (h : l.Perm l') :
    median_by_sorting l = median_by_sorting l' := by
  unfold median_by_sorting
  rw [insertionSort_eq_of_perm h, h.length_eq]

lemma median_by_sorting_double_perm {l l' : List ℚ} (h : l.Perm l') :
    median_by_sorting_double l = median_by_sorting_double l' := by
  unfold median_by_sorting_double
  rw [insertionSort_eq_of_perm h, h.length_eq]

end median

/-!
## Stepwise evaluation of the P² estimator on the 64-element feeds

Explicit intermediate accumulator states every eight samples, so that each
evaluation stays within the elaborator's reduction depth; the end-to-end
folds are assembled with `List.foldl_append`.
-/

lemma psq_asc_1 :
    ([(0:ℚ), 1, 2, 3, 4, 5, 6, 7].foldl median.p_square_step
      (median.p_square_init (1/2))) =
    (⟨1/2, [0, 1, 3, 5, 7], [1, 2, 4, 6, 8], [1, 11/4, 9/2, 25/4, 8], 8⟩ : median.p_square_acc) := by
  decide

lemma psq_asc_2 :
    ([(8:ℚ), 9, 10, 11, 12, 13, 14, 15].foldl median.p_square_step
      (⟨1/2, [0, 1, 3, 5, 7], [1, 2, 4, 6, 8], [1, 11/4, 9/2, 25/4, 8], 8⟩)) =
    (⟨1/2, [0, 3, 7, 11, 15], [1, 4, 8, 12, 16], [1, 19/4, 17/2, 49/4, 16], 16⟩ : median.p_square_acc) := by
  decide

lemma psq_asc_3 :
    ([(16:ℚ), 17, 18, 19, 20, 21, 22, 23].foldl median.p_square_step
      (⟨1/2, [0, 3, 7, 11, 15], [1, 4, 8, 12, 16], [1, 19/4, 17/2, 49/4, 16], 16⟩)) =
    (⟨1/2, [0, 5, 11, 17, 23], [1, 6, 12, 18, 24], [1, 27/4, 25/2, 73/4, 24], 24⟩ : median.p_square_acc) := by
  decide

lemma psq_asc_4 :
    ([(24:ℚ), 25, 26, 27, 28, 29, 30, 31].foldl median.p_square_step
      (⟨1/2, [0, 5, 11, 17, 23], [1, 6, 12, 18, 24], [1, 27/4, 25/2, 73/4, 24], 24⟩)) =
    (⟨1/2, [0, 7, 15, 23, 31], [1, 8, 16, 24, 32], [1, 35/4, 33/2, 97/4, 32], 32⟩ : median.p_square_acc) := by
  decide

lemma psq_asc_5 :
    ([(32:ℚ), 33, 34, 35, 36, 37, 38, 39].foldl median.p_square_step
      (⟨1/2, [0, 7, 15, 23, 31], [1, 8, 16, 24, 32], [1, 35/4, 33/2, 97/4, 32], 32⟩)) =
    (⟨1/2, [0, 9, 19, 29, 39], [1, 10, 20, 30, 40], [1, 43/4, 41/2, 121/4, 40], 40⟩ : median.p_square_acc) := by
  decide

lemma psq_asc_6 :
    ([(40:ℚ), 41, 42, 43, 44, 45, 46, 47].foldl median.p_square_step
      (⟨1/2, [0, 9, 19, 29, 39], [1, 10, 20, 30, 40], [1, 43/4, 41/2, 121/4, 40], 40⟩)) =
    (⟨1/2, [0, 11, 23, 35, 47], [1, 12, 24, 36, 48], [1, 51/4, 49/2, 145/4, 48], 48⟩ : median.p_square_acc) := by
  decide

lemma psq_asc_7 :
    ([(48:ℚ), 49, 50, 51, 52, 53, 54, 55].foldl median.p_square_step
      (⟨1/2, [0, 11, 23, 35, 47], [1, 12, 24, 36, 48], [1, 51/4, 49/2, 145/4, 48], 48⟩)) =
    (⟨1/2, [0, 13, 27, 41, 55], [1, 14, 28, 42, 56], [1, 59/4, 57/2, 169/4, 56], 56⟩ : median.p_square_acc) := by
  decide

lemma psq_asc_8 :
    ([(56:ℚ), 57, 58, 59, 60, 61, 62, 63].foldl median.p_square_step
      (⟨1/2, [0, 13, 27, 41, 55], [1, 14, 28, 42, 56], [1, 59/4, 57/2, 169/4, 56], 56⟩)) =
    (⟨1/2, [0, 15, 31, 47, 63], [1, 16, 32, 48, 64], [1, 67/4, 65/2, 193/4, 64], 64⟩ : median.p_square_acc) := by
  decide

lemma psq_desc_1 :
    ([(63:ℚ), 62, 61, 60, 59, 58, 57, 56].foldl median.p_square_step
      (median.p_square_init (1/2))) =
    (⟨1/2, [56, 58, 60, 62, 63], [1, 3, 5, 7, 8], [1, 11/4, 9/2, 25/4, 8], 8⟩ : median.p_square_acc) := by
  decide

lemma psq_desc_2 :
    ([(55:ℚ), 54, 53, 52, 51, 50, 49, 48].foldl median.p_square_step
      (⟨1/2, [56, 58, 60, 62, 63], [1, 3, 5, 7, 8], [1, 11/4, 9/2, 25/4, 8], 8⟩)) =
    (⟨1/2, [48, 52, 56, 60, 63], [1, 5, 9, 13, 16], [1, 19/4, 17/2, 49/4, 16], 16⟩ : median.p_square_acc) := by
  decide

lemma psq_desc_3 :
    ([(47:ℚ), 46, 45, 44, 43, 42, 41, 40].foldl median.p_square_step
      (⟨1/2, [48, 52, 56, 60, 63], [1, 5, 9, 13, 16], [1, 19/4, 17/2, 49/4, 16], 16⟩)) =
    (⟨1/2, [40, 46, 52, 58, 63], [1, 7, 13, 19, 24], [1, 27/4, 25/2, 73/4, 24], 24⟩ : median.p_square_acc) := by
  decide

lemma psq_desc_4 :
    ([(39:ℚ), 38, 37, 36, 35, 34, 33, 32].foldl median.p_square_step
      (⟨1/2, [40, 46, 52, 58, 63], [1, 7, 13, 19, 24], [1, 27/4, 25/2, 73/4, 24], 24⟩)) =
    (⟨1/2, [32, 40, 48, 56, 63], [1, 9, 17, 25, 32], [1, 35/4, 33/2, 97/4, 32], 32⟩ : median.p_square_acc) := by
  decide

lemma psq_desc_5 :
    ([(31:ℚ), 30, 29, 28, 27, 26, 25, 24].foldl median.p_square_step
      (⟨1/2, [32, 40, 48, 56, 63], [1, 9, 17, 25, 32], [1, 35/4, 33/2, 97/4, 32], 32⟩)) =
    (⟨1/2, [24, 34, 44, 54, 63], [1, 11, 21, 31, 40], [1, 43/4, 41/2, 121/4, 40], 40⟩ : median.p_square_acc) := by
  decide

lemma psq_desc_6 :
    ([(23:ℚ), 22, 21, 20, 19, 18, 17, 16].foldl median.p_square_step
      (⟨1/2, [24, 34, 44, 54, 63], [1, 11, 21, 31, 40], [1, 43/4, 41/2, 121/4, 40], 40⟩)) =
    (⟨1/2, [16, 28, 40, 52, 63], [1, 13, 25, 37, 48], [1, 51/4, 49/2, 145/4, 48], 48⟩ : median.p_square_acc) := by
  decide

lemma psq_desc_7 :
    ([(15:ℚ), 14, 13, 12, 11, 10, 9, 8].foldl median.p_square_step
      (⟨1/2, [16, 28, 40, 52, 63], [1, 13, 25, 37, 48], [1, 51/4, 49/2, 145/4, 48], 48⟩)) =
    (⟨1/2, [8, 22, 36, 50, 63], [1, 15, 29, 43, 56], [1, 59/4, 57/2, 169/4, 56], 56⟩ : median.p_square_acc) := by
  decide

lemma psq_desc_8 :
    ([(7:ℚ), 6, 5, 4, 3, 2, 1, 0].foldl median.p_square_step
      (⟨1/2, [8, 22, 36, 50, 63], [1, 15, 29, 43, 56], [1, 59/4, 57/2, 169/4, 56], 56⟩)) =
    (⟨1/2, [0, 16, 32, 48, 63], [1, 17, 33, 49, 64], [1, 67/4, 65/2, 193/4, 64], 64⟩ : median.p_square_acc) := by
  decide

lemma psq_asc_total :
    (((List.range 64).map (fun n => (n:ℚ))).map median.to_double).foldl
      median.p_square_step (median.p_square_init (1/2)) =
    (⟨1/2, [0, 15, 31, 47, 63], [1, 16, 32, 48, 64], [1, 67/4, 65/2, 193/4, 64], 64⟩ : median.p_square_acc) := by
  have hl : ((List.range 64).map (fun n => (n:ℚ))).map median.to_double =
      [(0:ℚ), 1, 2, 3, 4, 5, 6, 7] ++ ([(8:ℚ), 9, 10, 11, 12, 13, 14, 15] ++ ([(16:ℚ), 17, 18, 19, 20, 21, 22, 23] ++ ([(24:ℚ), 25, 26, 27, 28, 29, 30, 31] ++ ([(32:ℚ), 33, 34, 35, 36, 37, 38, 39] ++ ([(40:ℚ), 41, 42, 43, 44, 45, 46, 47] ++ ([(48:ℚ), 49, 50, 51, 52, 53, 54, 55] ++ ([(56:ℚ), 57, 58, 59, 60, 61, 62, 63]))))))) := by decide
  rw [hl]
  rw [List.foldl_append, psq_asc_1]
  rw [List.foldl_append, psq_asc_2]
  rw [List.foldl_append, psq_asc_3]
  rw [List.foldl_append, psq_asc_4]
  rw [List.foldl_append, psq_asc_5]
  rw [List.foldl_append, psq_asc_6]
  rw [List.foldl_append, psq_asc_7]
  exact psq_asc_8

lemma psq_desc_total :
    ((((List.range 64).reverse).map (fun n => (n:ℚ))).map median.to_double).foldl
      median.p_square_step (median.p_square_init (1/2)) =
    (⟨1/2, [0, 16, 32, 48, 63], [1, 17, 33, 49, 64], [1, 67/4, 65/2, 193/4, 64], 64⟩ : median.p_square_acc) := by
  have hl : (((List.range 64).reverse).map (fun n => (n:ℚ))).map median.to_double =
      [(63:ℚ), 62, 61, 60, 59, 58, 57, 56] ++ ([(55:ℚ), 54, 53, 52, 51, 50, 49, 48] ++ ([(47:ℚ), 46, 45, 44, 43, 42, 41, 40] ++ ([(39:ℚ), 38, 37, 36, 35, 34, 33, 32] ++ ([(31:ℚ), 30, 29, 28, 27, 26, 25, 24] ++ ([(23:ℚ), 22, 21, 20, 19, 18, 17, 16] ++ ([(15:ℚ), 14, 13, 12, 11, 10, 9, 8] ++ ([(7:ℚ), 6, 5, 4, 3, 2, 1, 0]))))))) := by decide
  rw [hl]
  rw [List.foldl_append, psq_desc_1]
  rw [List.foldl_append, psq_desc_2]
  rw [List.foldl_append, psq_desc_3]
  rw [List.foldl_append, psq_desc_4]
  rw [List.foldl_append, psq_desc_5]
  rw [List.foldl_append, psq_desc_6]
  rw [List.foldl_append, psq_desc_7]
  exact psq_desc_8

/-!
## The claims about the calculator
-/

section CalculatorClaims

open median

lemma map_to_double_eq_self {l : List ℚ} (h : ∀ v ∈ l, to_double v = v) :
    l.map to_double = l := by
  induction l with
  | nil => rfl
  | cons a t ih =>
    simp only [List.map_cons, h a (by simp), List.cons.injEq, true_and]
    exact ih fun v hv => h v (by simp [hv])

/-- C9 as stated is false in its buffer-mode half: `median()` below the
threshold computes the even-count mean `(lo + hi) / 2.0` in rounding
`double` arithmetic (median_calculator.hpp:96–99), so for the
double-representable two-element sequence `[1, 2^53 + 2]` it returns
`2^52 + 2`, not the exact median `2^52 + 3/2` of the inserted multiset. -/
theorem C9_counterexample_rounded_mean :
    ([(1:ℚ), 2^53 + 2].length < 64 ∧ ∀ v ∈ [(1:ℚ), 2^53 + 2], to_double v = v)
    ∧ median (run_calc [(1:ℚ), 2^53 + 2]) = some ((2:ℚ)^52 + 2)
    ∧ median_by_sorting [(1:ℚ), 2^53 + 2] = (2:ℚ)^52 + 3/2
    ∧ (2:ℚ)^52 + 2 ≠ (2:ℚ)^52 + 3/2 :=
  ⟨⟨by decide, by decide⟩, by decide, by decide, by decide⟩

/-- C9 amended: while fewer than 64 values have been inserted, the
calculator stays in buffer mode, the buffer holds exactly the inserted
values, and `median` returns the selection-based median of the buffered
multiset — the middle element, exactly, for an odd count, and for an even
count the mean of the two middle elements computed in rounding `double`
arithmetic; upon the 64th insertion the buffer is discarded and the
calculator switches to the P² estimator, and for every insertion sequence
of length ≥ 64 the buffer stays empty, the flag stays set (the switch is
irreversible), and `median` returns the P² marker height instead of the
exact median.  (Values are narrowed to `double` on entry — cf. C3 — and
the buffer-mode part admits values through `double_in_range`, the regime
where the embedding's double arithmetic is faithful.) -/
theorem C9_seed_threshold_switch (l : List ℚ) :
    (l ≠ [] → l.length < 64 → (∀ v ∈ l, double_in_range v) →
      (run_calc l).using_psquare = false ∧ (run_calc l).buffer = l ∧
      median (run_calc l) = some (median_by_sorting_double l) ∧
      (l.length % 2 = 1 → median (run_calc l) = some (median_by_sorting l)))
    ∧ (64 ≤ l.length →
      (run_calc l).buffer = [] ∧ (run_calc l).using_psquare = true ∧
      median (run_calc l) = some (p_square_quantile
        ((l.map to_double).foldl p_square_step (p_square_init (1/2))))) := by
  constructor
  · intro hne hlen hd
    have hmap := map_to_double_eq_self (fun v hv => (hd v hv).1)
    have hmed : median (run_calc l) = some (median_by_sorting_double l) := by
      rw [median_buffer l hlen hne, hmap, exact_median_eq_sorting_double l hne]
    refine ⟨?_, ?_, hmed, fun hodd => ?_⟩
    · rw [run_calc_buffer l hlen]
    · rw [run_calc_buffer l hlen]
      simp [hmap]
    · rw [hmed, median_by_sorting_double_odd l hodd]
  · intro hlen
    rw [run_calc_psquare l hlen]
    exact ⟨rfl, rfl, by simp [median]⟩

/-- Witness for `C9_seed_threshold_switch`: the odd multiset {1,2,3} in
buffer mode, and the 64-element insertion sequence 0,…,63 crossing the
threshold. -/
theorem C9_seed_threshold_switch_witness :
    median (run_calc [(1:ℚ), 2, 3]) = some (median_by_sorting_double [(1:ℚ), 2, 3])
    ∧ median (run_calc [(1:ℚ), 2, 3]) = some (median_by_sorting [(1:ℚ), 2, 3])
    ∧ (run_calc ((List.range 64).map (fun n => (n:ℚ)))).using_psquare = true
    ∧ (run_calc ((List.range 64).map (fun n => (n:ℚ)))).buffer = [] := by
  refine ⟨((C9_seed_threshold_switch [(1:ℚ), 2, 3]).1 (by decide) (by decide)
      (by decide)).2.2.1,
    ((C9_seed_threshold_switch [(1:ℚ), 2, 3]).1 (by decide) (by decide)
      (by decide)).2.2.2 (by decide),
    ((C9_seed_threshold_switch _).2 (by decide)).2.1,
    ((C9_seed_threshold_switch _).2 (by decide)).1⟩

/-- C5: `median` answers `none` exactly when nothing has been inserted yet
(the `add` transition of the embedding is a total function on all inputs:
the source body never throws), and the NaN sentinel branch of
`exact_median_from_buffer` is unreachable: in buffer mode after at least
one insertion the buffer is non-empty. -/
theorem C5_median_none_iff_no_insert (l : List ℚ) :
    (median (run_calc l) = none ↔ l = [])
    ∧ (l ≠ [] → (run_calc l).using_psquare = false → (run_calc l).buffer ≠ []) := by
  refine ⟨⟨?_, ?_⟩, buffer_ne_nil_of_not_psquare l⟩
  · intro h
    by_contra hne
    have hv := foldl_add_has_value l (mk_calculator 64) hne
    rw [median_eq_none_iff] at h
    rw [run_calc] at h
    rw [hv] at h
    cases h
  · rintro rfl
    rfl

/-- Witness for `C5_median_none_iff_no_insert` at the singleton insertion
sequence `[7]`. -/
theorem C5_median_none_iff_no_insert_witness :
    (median (run_calc [(7:ℚ)]) = none ↔ ([(7:ℚ)] : List ℚ) = [])
    ∧ (run_calc [(7:ℚ)]).buffer ≠ [] :=
  ⟨(C5_median_none_iff_no_insert [(7:ℚ)]).1,
   (C5_median_none_iff_no_insert [(7:ℚ)]).2 (by decide) (by decide)⟩

/-- C1 as stated is false twice over.  At the 64-element multiset
S = {0,…,63}, inserting in ascending order makes `median` return the P²
estimate 31 and in descending order 32, while fully sorting S and taking
the mean of the two middle elements gives 63/2 — the final result is
neither exact nor order-independent once the P² estimator has taken over.
And already below the threshold the even-count mean is computed in rounding
`double` arithmetic: inserting the double-representable pair {1, 2^53 + 2}
returns 2^52 + 2 although the exact mean of the two middle elements is
2^52 + 3/2. -/
theorem C1_counterexample_psquare_estimate :
    ((List.range 64).map (fun n => (n:ℚ))).Perm
      (((List.range 64).reverse).map (fun n => (n:ℚ)))
    ∧ median (run_calc ((List.range 64).map (fun n => (n:ℚ)))) = some 31
    ∧ median (run_calc (((List.range 64).reverse).map (fun n => (n:ℚ)))) = some 32
    ∧ median_by_sorting ((List.range 64).map (fun n => (n:ℚ))) = 63/2
    ∧ median (run_calc [(1:ℚ), 2^53 + 2]) = some ((2:ℚ)^52 + 2)
    ∧ median_by_sorting [(1:ℚ), 2^53 + 2] = (2:ℚ)^52 + 3/2
    ∧ (2:ℚ)^52 + 2 ≠ (2:ℚ)^52 + 3/2 := by
  refine ⟨((List.reverse_perm (List.range 64)).symm).map _, ?_, ?_, by decide,
    by decide, by decide, by decide⟩
  · rw [run_calc_psquare _ (by decide), psq_asc_total]
    decide
  · rw [run_calc_psquare _ (by decide), psq_desc_total]
    decide

/-- C1 amended: for multisets of fewer than 64 in-range double prices the
final median is order-independent, and equals the median obtained by fully
sorting and selecting: the middle element, exactly, for an odd count, and
for an even count the mean of the two middle elements computed in rounding
`double` arithmetic. -/
theorem C1_amended_small_multiset_exact (l₁ l₂ : List ℚ)
    (hp : l₁.Perm l₂) (hlen : l₁.length < 64)
    (hd : ∀ v ∈ l₁, double_in_range v) :
    median (run_calc l₁) = median (run_calc l₂)
    ∧ (l₁ ≠ [] → median (run_calc l₁) = some (median_by_sorting_double l₁))
    ∧ (l₁.length % 2 = 1 → median (run_calc l₁) = some (median_by_sorting l₁)) := by
  have hlen₂ : l₂.length < 64 := hp.length_eq ▸ hlen
  have main : ∀ l : List ℚ, l ≠ [] → l.length < 64 →
      median (run_calc l) = some (median_by_sorting_double (l.map to_double)) := by
    intro l hne hl
    rw [median_buffer l hl hne, exact_median_eq_sorting_double _ (by simp [hne])]
  have hmap : l₁.map to_double = l₁ :=
    map_to_double_eq_self (fun v hv => (hd v hv).1)
  have hmed : l₁ ≠ [] → median (run_calc l₁) = some (median_by_sorting_double l₁) := by
    intro hne
    rw [main l₁ hne hlen, hmap]
  refine ⟨?_, hmed, fun hodd => ?_⟩
  · rcases eq_or_ne l₁ [] with rfl | hne
    · rw [hp.symm.eq_nil]
    · have hne₂ : l₂ ≠ [] := fun h => hne ((h ▸ hp).eq_nil)
      have hmap₂ : l₂.map to_double = l₂ :=
        map_to_double_eq_self (fun v hv => (hd v (hp.mem_iff.mpr hv)).1)
      rw [main l₁ hne hlen, main l₂ hne₂ hlen₂, hmap, hmap₂,
        median_by_sorting_double_perm hp]
  · have hne : l₁ ≠ [] := by
      intro he
      rw [he] at hodd
      simp at hodd
    rw [hmed hne, median_by_sorting_double_odd l₁ hodd]

/-- Witness for `C1_amended_small_multiset_exact`: the permuted pair
`[3,1,2]` / `[1,2,3]`. -/
theorem C1_amended_small_multiset_exact_witness :
    median (run_calc [(3:ℚ), 1, 2]) = median (run_calc [(1:ℚ), 2, 3])
    ∧ median (run_calc [(3:ℚ), 1, 2]) = some (median_by_sorting_double [(3:ℚ), 1, 2])
    ∧ median (run_calc [(3:ℚ), 1, 2]) = some (median_by_sorting [(3:ℚ), 1, 2]) :=
  ⟨(C1_amended_small_multiset_exact [(3:ℚ), 1, 2] [(1:ℚ), 2, 3]
      (by decide) (by decide) (by decide)).1,
   (C1_amended_small_multiset_exact [(3:ℚ), 1, 2] [(1:ℚ), 2, 3]
      (by decide) (by decide) (by decide)).2.1 (by decide),
   (C1_amended_small_multiset_exact [(3:ℚ), 1, 2] [(1:ℚ), 2, 3]
      (by decide) (by decide) (by decide)).2.2 (by decide)⟩

/-- C3 as stated is false: the value 2^60 + 1 is exactly representable at
the input's extended (80-bit `long double`) precision, but `add` narrows it
to `double` (median_calculator.hpp:39), so the median of the singleton
multiset {2^60 + 1} comes back as 2^60, not 2^60 + 1. -/
theorem C3_counterexample_narrowed_to_double :
    median (run_calc [(2:ℚ)^60 + 1]) = some ((2:ℚ)^60)
    ∧ median_by_sorting [(2:ℚ)^60 + 1] = (2:ℚ)^60 + 1
    ∧ (2:ℚ)^60 ≠ (2:ℚ)^60 + 1 :=
  ⟨by decide, by decide, by decide⟩

end CalculatorClaims

/-!
## The claims about the pipeline
-/

section PipelineClaims

open median csv main_pipeline

/-- C3 amended: prices are narrowed to IEEE-754 double precision when
inserted into the calculator (`static_cast<double>` at
median_calculator.hpp:39), rather than held at the input's extended
precision through the median computation; the changed-median decision is
made by comparing values formatted to 8 fractional digits (`format_price`,
main.cpp:199–212), not raw bit equality, so a new median whose formatted
form equals the last emitted one suppresses emission. -/
theorem C3_amended_narrowing_and_format_comparison (st : median_calculator)
    (v : ℚ) (s : emit_state) (rec : record_t) :
    (st.using_psquare = false → st.buffer.length + 1 < st.seed_threshold →
      add st v = { st with buffer := st.buffer ++ [to_double v], has_value := true })
    ∧ ((emit_step s rec).out ≠ s.out ↔
        ∃ m, median.median (add s.calculator rec.price) = some m ∧
          s.last_median_str ≠ some (format_price m)) := by
  refine ⟨add_buffer st v, ?_⟩
  unfold emit_step
  cases hm : median.median (add s.calculator rec.price) with
  | none => simp [hm]
  | some m =>
    simp only [hm]
    by_cases h : s.last_median_str = some (format_price m)
    · simp [h]
    · simp only [if_neg h]
      constructor
      · intro _
        exact ⟨m, rfl, h⟩
      · intro _ heq
        have hlen := congrArg List.length heq
        simp at hlen

/-- Witness for `C3_amended_narrowing_and_format_comparison`: a fresh
calculator receiving 2^60 + 1, and the first record of the C6 scenario
entering the emission loop. -/
theorem C3_amended_witness :
    add (mk_calculator 64) ((2:ℚ)^60 + 1)
      = { mk_calculator 64 with
          buffer := (mk_calculator 64).buffer ++ [to_double ((2:ℚ)^60 + 1)]
          has_value := true }
    ∧ ((emit_step emit_init ⟨1, 10, "f", 2⟩).out ≠ emit_init.out ↔
        ∃ m, median.median (add emit_init.calculator (10:ℚ)) = some m ∧
          emit_init.last_median_str ≠ some (format_price m)) := by
  refine ⟨(C3_amended_narrowing_and_format_comparison (mk_calculator 64)
    ((2:ℚ)^60 + 1) emit_init ⟨1, 10, "f", 2⟩).1 (by decide) (by decide), ?_⟩
  exact (C3_amended_narrowing_and_format_comparison (mk_calculator 64)
    ((2:ℚ)^60 + 1) emit_init ⟨1, 10, "f", 2⟩).2

/-- C6: replaying the four records (1,10), (2,20), (3,15), (4,5) through the
pipeline — both from the CSV text and directly through sort-then-emit —
produces exactly the rows (1, "10.00000000"), (2, "15.00000000"),
(4, "12.50000000"), and nothing for timestamp 3. -/
theorem C6_end_to_end_scenario :
    run_pipeline [("input.csv", ["receive_ts;price", "1;10", "2;20", "3;15", "4;5"])]
      = .ok [(1, "10.00000000"), (2, "15.00000000"), (4, "12.50000000")]
    ∧ run_emit (sort_records
        [⟨1, 10, "input.csv", 2⟩, ⟨2, 20, "input.csv", 3⟩,
         ⟨3, 15, "input.csv", 4⟩, ⟨4, 5, "input.csv", 5⟩])
      = [(1, "10.00000000"), (2, "15.00000000"), (4, "12.50000000")] :=
  ⟨by decide, by decide⟩

/-- C10: a discovered file with no readable header line contributes no
records and no error — the whole-run result is unchanged by it — and an
empty data line inside a file is skipped (with its line number counted)
rather than treated as a row with too few fields; neither case aborts. -/
theorem C10_empty_file_and_empty_line_skipped (name : String) (idxr idxp n : ℕ)
    (ls : List String) (rest : List (String × List String)) :
    read_csv_file name [] = .ok []
    ∧ read_csv_files ((name, []) :: rest) = read_csv_files rest
    ∧ read_rows name idxr idxp n ("" :: ls) = read_rows name idxr idxp (n + 1) ls := by
  refine ⟨rfl, ?_, by simp [read_rows]⟩
  show (match read_csv_file name [] with
    | .error e => .error e
    | .ok recs => match read_csv_files rest with
      | .error e => .error e
      | .ok more => .ok (recs ++ more)) = read_csv_files rest
  cases h : read_csv_files rest <;> simp [read_csv_file, h]

end PipelineClaims

/-!
## The emission loop: invariants for the monotone-emission claim
-/

section EmissionClaims

open median csv main_pipeline

lemma emit_step_shape (s : emit_state) (rec : record_t) :
    ((emit_step s rec).out = s.out ∧ (emit_step s rec).last_median_str = s.last_median_str)
    ∨ ∃ str, (emit_step s rec).out = s.out ++ [(rec.receive_ts, str)]
        ∧ (emit_step s rec).last_median_str = some str
        ∧ s.last_median_str ≠ some str := by
  unfold emit_step
  cases hm : median.median (median.add s.calculator rec.price) with
  | none => simp [hm]
  | some m =>
    simp only [hm]
    by_cases h : s.last_median_str = some (format_price m)
    · left
      simp [h]
    · right
      exact ⟨format_price m, by simp [h], by simp [h], h⟩

lemma emit_fold_spec (recs : List record_t) (s : emit_state)
    (hlast : s.last_median_str = (s.out.map Prod.snd).getLast?) :
    (recs.foldl emit_step s).last_median_str
        = (((recs.foldl emit_step s).out).map Prod.snd).getLast?
    ∧ ∃ t, (recs.foldl emit_step s).out = s.out ++ t
        ∧ List.Sublist (t.map Prod.fst) (recs.map record_t.receive_ts)
        ∧ (List.Chain' (· ≠ ·) (s.out.map Prod.snd) →
            List.Chain' (· ≠ ·) (((recs.foldl emit_step s).out).map Prod.snd)) := by
  induction recs generalizing s with
  | nil => exact ⟨hlast, [], by simp, by simp, fun h => h⟩
  | cons r rs ih =>
    rw [List.foldl_cons]
    rcases emit_step_shape s r with ⟨ho, hl⟩ | ⟨str, ho, hl, hne⟩
    · obtain ⟨h1, t, h2, h3, h4⟩ := ih (emit_step s r) (by rw [hl, ho, hlast])
      refine ⟨h1, t, by rw [h2, ho], h3.cons _, fun hc => h4 (by rw [ho]; exact hc)⟩
    · obtain ⟨h1, t, h2, h3, h4⟩ := ih (emit_step s r)
        (by rw [hl, ho, List.map_append]; simp)
      refine ⟨h1, (r.receive_ts, str) :: t, ?_, ?_, ?_⟩
      · rw [h2, ho, List.append_assoc]
        rfl
      · simpa using h3.cons₂ r.receive_ts
      · intro hc
        apply h4
        rw [ho, List.map_append]
        rw [List.chain'_append]
        refine ⟨hc, by simp, ?_⟩
        intro x hx y hy
        simp at hy
        subst hy
        intro hxy
        exact hne (by rw [hlast, hx, hxy])

/-- C4: over a timestamp-sorted record sequence, the emitted rows'
timestamps form a sublist of the records' timestamps — so they are
non-decreasing, every emission happens while processing some record (after
its insertion), and an empty stream emits nothing — and no two consecutive
emitted rows carry the same 8-digit-formatted median value. -/
theorem C4_monotone_emission (recs : List record_t)
    (hsorted : (recs.map record_t.receive_ts).Sorted (· ≤ ·)) :
    List.Sublist ((run_emit recs).map Prod.fst) (recs.map record_t.receive_ts)
    ∧ ((run_emit recs).map Prod.fst).Sorted (· ≤ ·)
    ∧ List.Chain' (· ≠ ·) ((run_emit recs).map Prod.snd)
    ∧ (recs = [] → run_emit recs = []) := by
  obtain ⟨h1, t, h2, h3, h4⟩ := emit_fold_spec recs emit_init rfl
  have hout : run_emit recs = t := by
    rw [run_emit, h2]
    rfl
  refine ⟨?_, ?_, ?_, ?_⟩
  · rw [hout]
    exact h3
  · rw [hout]
    exact hsorted.sublist h3
  · have hc := h4 (by simp [emit_init])
    rw [run_emit]
    exact hc
  · rintro rfl
    rfl

/-- Witness for `C4_monotone_emission`: the four-record scenario of C6. -/
theorem C4_monotone_emission_witness :
    List.Sublist
      ((run_emit [⟨1, 10, "f", 2⟩, ⟨2, 20, "f", 3⟩, ⟨3, 15, "f", 4⟩,
        ⟨4, 5, "f", 5⟩]).map Prod.fst)
      ([⟨1, 10, "f", 2⟩, ⟨2, 20, "f", 3⟩, ⟨3, 15, "f", 4⟩,
        ⟨4, 5, "f", 5⟩].map record_t.receive_ts)
    ∧ List.Chain' (· ≠ ·) ((run_emit [⟨1, 10, "f", 2⟩, ⟨2, 20, "f", 3⟩,
        ⟨3, 15, "f", 4⟩, ⟨4, 5, "f", 5⟩]).map Prod.snd) := by
  refine ⟨(C4_monotone_emission _ (by decide)).1, (C4_monotone_emission _ (by decide)).2.2.1⟩

end EmissionClaims

/-!
## The stable sort: ordering and stability
-/

section SortClaims

open csv main_pipeline

lemma record_le_iff (a b : record_t) :
    record_le a b ↔ record_key a ≤ record_key b := by
  unfold record_le record_before record_key
  simp only [Prod.Lex.le_iff]
  by_cases h1 : b.receive_ts = a.receive_ts
  · rw [if_neg (by simp [h1])]
    by_cases h2 : b.source_file = a.source_file
    · rw [if_neg (by simp [h2])]
      simp [h1, h2, Nat.not_lt]
    · rw [if_pos h2]
      have h2' : a.source_file ≠ b.source_file := fun he => h2 he.symm
      simp only [decide_eq_false_iff_not, not_lt, h1, lt_self_iff_false, false_or,
        Prod.Lex.le_iff, h2', false_and, or_false, true_and]
      constructor
      · intro hle
        exact lt_of_le_of_ne hle h2'
      · exact le_of_lt
  · rw [if_pos h1]
    have h1' : a.receive_ts ≠ b.receive_ts := fun he => h1 he.symm
    simp only [decide_eq_false_iff_not, Nat.not_lt, h1', false_and, or_false]
    omega

instance : IsTotal record_t record_le :=
  ⟨fun a b => by
    rw [record_le_iff, record_le_iff]
    exact le_total (record_key a) (record_key b)⟩

instance : IsTrans record_t record_le :=
  ⟨fun a b c hab hbc => by
    rw [record_le_iff] at hab hbc ⊢
    exact le_trans hab hbc⟩

/-- C7: `sort_records` permutes the records into a sequence that is sorted
for the comparator-induced order: timestamps are non-decreasing, records
with equal timestamps are ordered by source identifier then line number
(both ascending), and records the comparator cannot distinguish keep their
original relative order (stability of `std::stable_sort`). -/
theorem C7_stable_sort_by_provenance (l : List record_t) :
    (sort_records l).Perm l
    ∧ (sort_records l).Pairwise record_le
    ∧ (sort_records l).Pairwise (fun a b => a.receive_ts ≤ b.receive_ts)
    ∧ (sort_records l).Pairwise (fun a b => a.receive_ts = b.receive_ts →
        a.source_file < b.source_file
        ∨ (a.source_file = b.source_file ∧ a.line_no ≤ b.line_no))
    ∧ ∀ a b, record_le a b → record_le b a →
        List.Sublist [a, b] l → List.Sublist [a, b] (sort_records l) := by
  have hs : (sort_records l).Pairwise record_le := List.sorted_insertionSort record_le l
  refine ⟨List.perm_insertionSort record_le l, hs, ?_, ?_, ?_⟩
  · refine hs.imp ?_
    intro a b hab
    rw [record_le_iff] at hab
    simp only [record_key, Prod.Lex.le_iff] at hab
    rcases hab with h | ⟨h, -⟩
    · exact le_of_lt h
    · exact le_of_eq h
  · refine hs.imp ?_
    intro a b hab heq
    rw [record_le_iff] at hab
    simp only [record_key, Prod.Lex.le_iff] at hab
    rcases hab with h | ⟨-, h⟩
    · omega
    · exact h
  · intro a b hab hba hsub
    exact List.pair_sublist_insertionSort hab hsub

/-- Witness for `C7_stable_sort_by_provenance`: two records with identical
timestamp and provenance keep their order; two with equal timestamps are
ordered by line number. -/
theorem C7_stable_sort_by_provenance_witness :
    (sort_records [⟨5, 1, "a.csv", 2⟩, ⟨5, 2, "a.csv", 2⟩]).Pairwise
      (fun a b => a.receive_ts = b.receive_ts →
        a.source_file < b.source_file
        ∨ (a.source_file = b.source_file ∧ a.line_no ≤ b.line_no))
    ∧ List.Sublist [⟨5, 1, "a.csv", 2⟩, ⟨5, 2, "a.csv", 2⟩]
        (sort_records [⟨5, 1, "a.csv", 2⟩, ⟨5, 2, "a.csv", 2⟩]) :=
  ⟨(C7_stable_sort_by_provenance _).2.2.2.1,
   (C7_stable_sort_by_provenance [⟨5, 1, "a.csv", 2⟩, ⟨5, 2, "a.csv", 2⟩]).2.2.2.2
     ⟨5, 1, "a.csv", 2⟩ ⟨5, 2, "a.csv", 2⟩ (by decide) (by decide)
     (List.Sublist.refl _)⟩

end SortClaims

/-!
## CSV ingestion errors
-/

section CsvClaims

open csv main_pipeline

/-- C8 as stated is false in one respect: the missing-required-column error
identifies the file but carries no line number (csv_reader.hpp:121–123).
A run over a single file whose header is just `receive_ts` aborts with
exactly that error. -/
theorem C8_counterexample_header_error_no_line :
    read_csv_files [("a.csv", ["receive_ts"])]
      = .error (.missing_columns "a.csv")
    ∧ csv_error.line_of (.missing_columns "a.csv") = none
    ∧ csv_error.file_of (.missing_columns "a.csv") = "a.csv" :=
  ⟨by decide, rfl, rfl⟩

/-- C8 amended: a missing required header column, a row with too few
fields, or an unparsable timestamp or price is fatal — the first such
condition aborts the file's ingestion with an error naming the file (and,
for the row-level errors, the 1-based line number); no bad row is dropped,
and a read error makes the whole run abort before any output content is
produced (`return 3` at main.cpp:162 precedes the creation of the output
file at main.cpp:187–188). -/
theorem C8_amended_fatal_ingestion_errors (name header : String)
    (rest : List String) (idxr idxp n : ℕ) (line : String) (ls : List String)
    (files : List (String × List String)) (e : csv_error) :
    (find_col (split_line header) "receive_ts" = none
        ∨ find_col (split_line header) "price" = none →
      read_csv_file name (header :: rest) = .error (.missing_columns name))
    ∧ (line ≠ "" → (split_line line).length ≤ max idxr idxp →
      read_rows name idxr idxp n (line :: ls) = .error (.bad_row name (n + 1)))
    ∧ (line ≠ "" → max idxr idxp < (split_line line).length →
      parse_u64 ((split_line line).getD idxr "") = none →
      read_rows name idxr idxp n (line :: ls) = .error (.bad_receive_ts name (n + 1)))
    ∧ (∀ ts, line ≠ "" → max idxr idxp < (split_line line).length →
      parse_u64 ((split_line line).getD idxr "") = some ts →
      parse_long_double ((split_line line).getD idxp "") = none →
      read_rows name idxr idxp n (line :: ls) = .error (.bad_price name (n + 1)))
    ∧ (read_csv_files files = .error e → run_pipeline files = .error e) := by
  refine ⟨?_, ?_, ?_, ?_, ?_⟩
  · intro h
    unfold read_csv_file
    dsimp only
    rcases h with h | h
    · rw [h]
    · rw [h]
      cases find_col (split_line header) "receive_ts" <;> rfl
  · intro hne hlen
    unfold read_rows
    rw [if_neg hne, if_pos hlen]
  · intro hne hlen hu
    unfold read_rows
    rw [if_neg hne, if_neg (by omega), hu]
  · intro ts hne hlen hu hp
    unfold read_rows
    rw [if_neg hne, if_neg (by omega), hu, hp]
  · intro h
    unfold run_pipeline
    rw [h]

/-- Witness for `C8_amended_fatal_ingestion_errors`: a header without
`price`, a one-field row, an unparsable timestamp, an unparsable price,
and the abort of the whole run. -/
theorem C8_amended_fatal_ingestion_errors_witness :
    read_csv_file "a.csv" ["receive_ts;other"] = .error (.missing_columns "a.csv")
    ∧ read_rows "a.csv" 0 1 1 ["1"] = .error (.bad_row "a.csv" 2)
    ∧ read_rows "a.csv" 0 1 1 ["x;5"] = .error (.bad_receive_ts "a.csv" 2)
    ∧ read_rows "a.csv" 0 1 1 ["1;zz"] = .error (.bad_price "a.csv" 2)
    ∧ run_pipeline [("a.csv", ["receive_ts;price", "1"])]
        = .error (.bad_row "a.csv" 2) := by
  refine ⟨?_, ?_, ?_, ?_, ?_⟩
  · exact (C8_amended_fatal_ingestion_errors "a.csv" "receive_ts;other" [] 0 1 1 "" []
      [] (.missing_columns "a.csv")).1 (by decide)
  · exact (C8_amended_fatal_ingestion_errors "a.csv" "" [] 0 1 1 "1" []
      [] (.missing_columns "a.csv")).2.1 (by decide) (by decide)
  · exact (C8_amended_fatal_ingestion_errors "a.csv" "" [] 0 1 1 "x;5" []
      [] (.missing_columns "a.csv")).2.2.1 (by decide) (by decide) (by decide)
  · exact (C8_amended_fatal_ingestion_errors "a.csv" "" [] 0 1 1 "1;zz" []
      [] (.missing_columns "a.csv")).2.2.2.1 1 (by decide) (by decide) (by decide)
      (by decide)
  · exact (C8_amended_fatal_ingestion_errors "a.csv" "" [] 0 1 1 "" []
      [("a.csv", ["receive_ts;price", "1"])] (.bad_row "a.csv" 2)).2.2.2.2
      (by decide)

end CsvClaims
